import Mathlib

/-!
Verification of the douyin-downloader repository's parsing service,
URL resolution, cache, proxy and downloader components, as a shallow
embedding in Lean 4.  Python dictionaries are modelled as association
lists in insertion order, Python floats and timestamps as rationals,
and network effects as explicit outcome parameters.
-/

/-- Python/JSON-like value, as produced and consumed by the repository
(`json.loads`/`json.dumps` round trips are modelled as the identity on
these values). -/
inductive PyVal : Type where
  | str (s : String)
  | num (q : ℚ)
  | bool (b : Bool)
  | none
  | list (xs : List PyVal)
  | dict (fields : List (String × PyVal))

/-- Python truthiness (`if x:`) for the modelled values: empty strings,
zero, `False`, `None`, empty lists and empty dicts are falsy. -/
def pyTruthy : PyVal → Bool
  | .str s => !s.isEmpty
  | .num q => decide (q ≠ 0)
  | .bool b => b
  | .none => false
  | .list xs => !xs.isEmpty
  | .dict fs => !fs.isEmpty

/-- Python `d[k] = v` on an association-list dict: overwrite the first
occurrence of the key in place if present (keys of dicts built this way
are unique, as in Python), otherwise append the new pair. -/
def alistSet {α : Type} (d : List (String × α)) (k : String) (v : α) :
    List (String × α) :=
  match d with
  | [] => [(k, v)]
  | kv :: rest => if kv.1 = k then (k, v) :: rest else kv :: alistSet rest k v

/-- Python `d.get(k, default)`. -/
def alistGetD {α : Type} (d : List (String × α)) (k : String) (default : α) : α :=
  (d.lookup k).getD default

/-- Membership test `k in d` for an association-list dict. -/
def alistHasKey {α : Type} (d : List (String × α)) (k : String) : Bool :=
  (d.lookup k).isSome

/-- ASCII digit test, Python `\d` for the URLs handled here. -/
def isDigitChar (c : Char) : Bool := decide ('0' ≤ c) && decide (c ≤ '9')

/-- Match attempt of the pattern `lit(\d{min,max})` at the START of `cs`
(`maxLen = none` encodes `\d+`-style unbounded repetition).  With nothing
after the capture group, the greedy repetition takes the maximal digit
run after the literal, clipped at `maxLen`, and succeeds when the run
has at least `minLen` digits. -/
def matchLitDigitsAt (lit : List Char) (minLen : Nat) (maxLen : Option Nat)
    (cs : List Char) : Option (List Char) :=
  if lit.isPrefixOf cs then
    let digits := (cs.drop lit.length).takeWhile isDigitChar
    if minLen ≤ digits.length then
      some (match maxLen with | Option.none => digits | some m => digits.take m)
    else Option.none
  else Option.none

/-- Python `re.search` for the pattern `lit(\d{min,max})`: try each start
position left to right and return the capture group of the leftmost
match. -/
def reSearchLitDigits (lit : List Char) (minLen : Nat) (maxLen : Option Nat) :
    List Char → Option (List Char)
  | [] => matchLitDigitsAt lit minLen maxLen []
  | c :: cs =>
    match matchLitDigitsAt lit minLen maxLen (c :: cs) with
    | some d => some d
    | Option.none => reSearchLitDigits lit minLen maxLen cs

/-- String-level wrapper for `reSearchLitDigits`. -/
def searchLitDigits (lit : String) (minLen : Nat) (maxLen : Option Nat)
    (url : String) : Option String :=
  (reSearchLitDigits lit.toList minLen maxLen url.toList).map
    (fun ds => String.mk ds)

/-- Search for `/video/(\d+)` (first pattern of
`BaseStrategy.extract_video_id`, also the first pattern of
`DouYinWebParser._resolve_short_url`). -/
def searchVideoPath (s : String) : Option String := searchLitDigits "/video/" 1 Option.none s

/-- Search for `/note/(\d+)`. -/
def searchNotePath (s : String) : Option String := searchLitDigits "/note/" 1 Option.none s

/-- Search for `modal_id=(\d+)`. -/
def searchModalId (s : String) : Option String := searchLitDigits "modal_id=" 1 Option.none s

/-- Search for `aweme_id=(\d+)`. -/
def searchAwemeId (s : String) : Option String := searchLitDigits "aweme_id=" 1 Option.none s

/-- Search for `/(\d{15,20})`: a slash followed by a run of at least 15
digits, capturing at most the first 20 of them. -/
def searchBareDigits (s : String) : Option String := searchLitDigits "/" 15 (some 20) s

/-- Search for `/share/video/(\d+)` (second pattern of
`DouYinWebParser._resolve_short_url`). -/
def searchShareVideoPath (s : String) : Option String :=
  searchLitDigits "/share/video/" 1 Option.none s

/-- Embedding of `BaseStrategy.extract_video_id`
(`src/parsing_service/strategies/base_strategy.py`): try the five
patterns in order and return the first capture; when none matches, both
the `v.douyin.com` short-link branch and the final fall-through return
`None`, so the function returns `none` either way. -/
def extract_video_id (url : String) : Option String :=
  match searchVideoPath url with
  | some id => some id
  | Option.none =>
  match searchNotePath url with
  | some id => some id
  | Option.none =>
  match searchModalId url with
  | some id => some id
  | Option.none =>
  match searchAwemeId url with
  | some id => some id
  | Option.none =>
  match searchBareDigits url with
  | some id => some id
  | Option.none => Option.none

/-- Outcome of the single non-redirecting HTTP GET issued by
`DouYinWebParser._resolve_short_url`: the request either raises, or
returns a response whose `Location` header may be absent. -/
inductive HttpHeadOutcome : Type where
  | err
  | resp (location : Option String)

/-- Embedding of `DouYinWebParser._resolve_short_url`
(`src/web_parser.py`): on a response with a `Location` header, search the
redirect target for `/video/(\d+)` and then `/share/video/(\d+)`; a
capture yields the canonical `https://www.douyin.com/video/<id>` URL,
otherwise the `Location` value is returned as is; a missing header or a
raised exception returns the original URL. -/
def resolve_short_url (url : String) (h : HttpHeadOutcome) : String :=
  match h with
  | .err => url
  | .resp Option.none => url
  | .resp (some location) =>
    match searchVideoPath location with
    | some vid => "https://www.douyin.com/video/" ++ vid
    | Option.none =>
      match searchShareVideoPath location with
      | some vid => "https://www.douyin.com/video/" ++ vid
      | Option.none => location


/-- Test for the literal Python string `'None'` (the right operand of the
`result['video_url'] == 'None'` comparison, which is `False` on
non-string values). -/
def isStrNone : PyVal → Bool
  | .str s => s = "None"
  | _ => false

/-- Embedding of `ParsingService._validate_result`
(`src/parsing_service/app.py`): reject a falsy (empty) result, require
the keys `video_id`, `title` and `author`, and when a `video_url` key is
present reject a falsy value or the literal string `'None'`. -/
def validate_result (result : List (String × PyVal)) : Bool :=
  if result.isEmpty then false
  else if !(alistHasKey result "video_id" && alistHasKey result "title" &&
      alistHasKey result "author") then false
  else
    match result.lookup "video_url" with
    | some v => pyTruthy v && !isStrNone v
    | Option.none => true

/-- Python `str()` on the modelled values, as used for
`str(detail.get('aweme_id', ''))`. -/
def pyStrOf : PyVal → String
  | .str s => s
  | .num q => if q.den = 1 then toString q.num else toString q
  | .bool b => if b then "True" else "False"
  | .none => "None"
  | .list _ => "<list>"
  | .dict _ => "<dict>"

/-- View of a value as a list (iteration in the repository only happens
over values that are lists). -/
def asPyList : PyVal → List PyVal
  | .list xs => xs
  | _ => []

/-- View of a value as a dict, Python `detail.get(k, {})` results. -/
def asPyDict : PyVal → List (String × PyVal)
  | .dict fs => fs
  | _ => []

/-- Dict access `d.get(k, default)` on a `PyVal.dict`-shaped value. -/
def pyGetD (d : List (String × PyVal)) (k : String) (default : PyVal) : PyVal :=
  (d.lookup k).getD default

/-- Embedding of the image-list loop of
`BaseStrategy._extract_from_aweme_detail`: keep the first element of
each image dict's non-empty `url_list`. -/
def extractImageUrls (imgs : List PyVal) : List PyVal :=
  imgs.foldr
    (fun img acc =>
      match img with
      | .dict fs =>
        match asPyList (pyGetD fs "url_list" (.list [])) with
        | [] => acc
        | u :: _ => u :: acc
      | _ => acc)
    []

/-- Embedding of `BaseStrategy._extract_from_aweme_detail`
(`src/parsing_service/strategies/base_strategy.py`): build the `info`
dict in the insertion order of the Python code, including the
`playwm -> play` watermark substitution on the first play address. -/
def extract_from_aweme_detail (detail : List (String × PyVal)) :
    List (String × PyVal) :=
  let info : List (String × PyVal) := []
  let info := alistSet info "video_id" (.str (pyStrOf (pyGetD detail "aweme_id" (.str ""))))
  let info := alistSet info "title" (pyGetD detail "desc" (.str ""))
  let info := alistSet info "create_time" (pyGetD detail "create_time" (.num 0))
  let author := asPyDict (pyGetD detail "author" (.dict []))
  let info := alistSet info "author" (pyGetD author "nickname" (.str ""))
  let info := alistSet info "author_id" (pyGetD author "sec_uid" (.str ""))
  let stats := asPyDict (pyGetD detail "statistics" (.dict []))
  let info := alistSet info "statistics" (.dict
    [("likes", pyGetD stats "digg_count" (.num 0)),
     ("comments", pyGetD stats "comment_count" (.num 0)),
     ("shares", pyGetD stats "share_count" (.num 0)),
     ("views", pyGetD stats "play_count" (.num 0))])
  let info :=
    if pyTruthy (pyGetD detail "images" .none) then
      let info := alistSet info "is_image" (.bool true)
      alistSet info "images"
        (.list (extractImageUrls (asPyList (pyGetD detail "images" (.list [])))))
    else
      let video := asPyDict (pyGetD detail "video" (.dict []))
      let play_addr := pyGetD video "play_addr" (.dict [])
      let info :=
        if pyTruthy play_addr then
          match asPyList (pyGetD (asPyDict play_addr) "url_list" (.list [])) with
          | .str u :: _ =>
            alistSet info "video_url" (.str (u.replace "playwm" "play"))
          | _ => info
        else info
      let cover := pyGetD video "cover" (.dict [])
      let info :=
        if pyTruthy cover then
          match asPyList (pyGetD (asPyDict cover) "url_list" (.list [])) with
          | u :: _ => alistSet info "cover_url" u
          | [] => info
        else info
      alistSet info "duration" (pyGetD video "duration" (.num 0))
  let music := pyGetD detail "music" (.dict [])
  if pyTruthy music then
    let play_url := pyGetD (asPyDict music) "play_url" (.dict [])
    if pyTruthy play_url then
      match asPyList (pyGetD (asPyDict play_url) "url_list" (.list [])) with
      | u :: _ => alistSet info "music_url" u
      | [] => info
    else info
  else info

/-- Python `dict.update`: fold the updates into the dict left to right. -/
def alistUpdate (d updates : List (String × PyVal)) : List (String × PyVal) :=
  updates.foldl (fun acc kv => alistSet acc kv.1 kv.2) d

/-- Default record built at the top of
`BaseStrategy.normalize_video_info`. -/
def normalizeBase (raw : List (String × PyVal)) : List (String × PyVal) :=
  [("video_id", .str ""), ("title", .str ""), ("author", .str ""),
   ("author_id", .str ""), ("video_url", .str ""), ("cover_url", .str ""),
   ("music_url", .str ""), ("duration", .num 0), ("create_time", .num 0),
   ("statistics", .dict
     [("likes", .num 0), ("comments", .num 0), ("shares", .num 0), ("views", .num 0)]),
   ("is_image", .bool false), ("images", .list []), ("raw_data", .dict raw)]

/-- Embedding of `BaseStrategy.normalize_video_info`
(`src/parsing_service/strategies/base_strategy.py`): start from the
fixed default record and update it from `aweme_detail`, the first
element of `item_list`, or the raw data itself when it carries an
`aweme_id`. -/
def normalize_video_info (raw : List (String × PyVal)) : List (String × PyVal) :=
  if alistHasKey raw "aweme_detail" then
    alistUpdate (normalizeBase raw)
      (extract_from_aweme_detail (asPyDict (pyGetD raw "aweme_detail" .none)))
  else if alistHasKey raw "item_list" then
    match asPyList (pyGetD raw "item_list" (.list [])) with
    | d :: _ => alistUpdate (normalizeBase raw) (extract_from_aweme_detail (asPyDict d))
    | [] => normalizeBase raw
  else if alistHasKey raw "aweme_id" then
    alistUpdate (normalizeBase raw) (extract_from_aweme_detail raw)
  else normalizeBase raw

/-- Entry of `ParsingService.strategies` as built by
`_initialize_strategies` (the `handler` object is identified by the
strategy name; outcomes of running it are supplied externally). -/
structure StrategyRec : Type where
  name : String
  priority : Nat
  timeout : Nat
  enabled : Bool
deriving DecidableEq

/-- Embedding of `ParsingService._initialize_strategies`
(`src/parsing_service/app.py`): the fixed chain, with the playwright and
selenium entries guarded by the `ENABLE_PLAYWRIGHT` / `ENABLE_SELENIUM`
environment flags. -/
def initialize_strategies (enablePlaywright enableSelenium : Bool) : List StrategyRec :=
  [⟨"api_with_signature", 1, 10, true⟩] ++
  (if enablePlaywright then [⟨"playwright", 2, 30, true⟩] else []) ++
  (if enableSelenium then [⟨"selenium", 3, 30, true⟩] else []) ++
  [⟨"requests", 4, 15, true⟩]

/-- Mutable counters of `ParsingService`: `success_counts` holds Python
ints, `failure_counts` holds Python floats (it is decremented by `0.5`),
both starting as empty dicts. -/
structure ServiceState : Type where
  success_counts : List (String × ℕ)
  failure_counts : List (String × ℚ)
deriving DecidableEq

/-- Counter state right after `ParsingService.__init__`. -/
def initServiceState : ServiceState := ⟨[], []⟩

/-- Embedding of `ParsingService._initialize_weights`. -/
def strategy_weights : List (String × ℚ) :=
  [("api_with_signature", 1), ("playwright", 4/5), ("selenium", 3/5), ("requests", 2/5)]

/-- Base weight lookup `self.strategy_weights.get(name, 0.5)`. -/
def baseWeight (name : String) : ℚ := (strategy_weights.lookup name).getD (1/2)

/-- Success count read `self.success_counts.get(name, 0)`. -/
def successCountN (st : ServiceState) (name : String) : ℕ :=
  (st.success_counts.lookup name).getD 0

/-- Success count as a rational, as it enters the weight arithmetic. -/
def successCount (st : ServiceState) (name : String) : ℚ :=
  (successCountN st name : ℕ)

/-- Failure count read `self.failure_counts.get(name, 0)`. -/
def failureCount (st : ServiceState) (name : String) : ℚ :=
  (st.failure_counts.lookup name).getD 0

/-- Dynamic score computed inside
`ParsingService._sort_strategies_by_weight`: the base weight scaled by
`0.5 + success_rate * 0.5` once any history is recorded. -/
def dynamicWeight (st : ServiceState) (name : String) : ℚ :=
  if 0 < successCount st name + failureCount st name then
    baseWeight name * (1/2 + successCount st name /
      (successCount st name + failureCount st name) * (1/2))
  else baseWeight name

/-- Embedding of `ParsingService._sort_strategies_by_weight`: Python
`sorted(..., key=score, reverse=True)` is a stable descending sort, here
a stable merge sort with the reversed comparison. -/
def sort_strategies_by_weight (st : ServiceState) (strategies : List StrategyRec) :
    List StrategyRec :=
  strategies.mergeSort
    (fun a b => decide (dynamicWeight st b.name ≤ dynamicWeight st a.name))

/-- Embedding of `ParsingService._record_success`: increment the success
count and, when the strategy has a failure entry, decrement it by `0.5`
clamped at `0`. -/
def record_success (st : ServiceState) (name : String) : ServiceState :=
  { success_counts :=
      alistSet st.success_counts name ((st.success_counts.lookup name).getD 0 + 1)
    failure_counts :=
      if alistHasKey st.failure_counts name then
        alistSet st.failure_counts name
          (max 0 ((st.failure_counts.lookup name).getD 0 - 1/2))
      else st.failure_counts }

/-- Embedding of `ParsingService._record_failure`: increment the failure
count by `1`. -/
def record_failure (st : ServiceState) (name : String) : ServiceState :=
  { st with failure_counts :=
      alistSet st.failure_counts name ((st.failure_counts.lookup name).getD 0 + 1) }

/-- Success or failure recording event, one per `_record_success` /
`_record_failure` call made by `parse_video`. -/
inductive ServiceEvent : Type where
  | success (name : String)
  | failure (name : String)
deriving DecidableEq

/-- Replay of a sequence of recording events against the counters. -/
def applyEvents (st : ServiceState) : List ServiceEvent → ServiceState
  | [] => st
  | .success n :: rest => applyEvents (record_success st n) rest
  | .failure n :: rest => applyEvents (record_failure st n) rest

/-- Outcome of one awaited strategy execution inside `parse_video`:
a returned result dict, an `asyncio.TimeoutError` (the
`asyncio.wait_for` deadline of `strategy['timeout']` seconds expired),
or any other exception with its message. -/
inductive AttemptOutcome : Type where
  | ok (result : List (String × PyVal))
  | timeout
  | error (msg : String)

/-- Observable side effect of the `parse_video` strategy loop, in
program order: a strategy execution is started, a success or failure is
recorded, or the validated result is written to the cache. -/
inductive ChainEv : Type where
  | attempt (name : String)
  | recordSuccess (name : String)
  | recordFailure (name : String)
  | cacheSet (result : List (String × PyVal))

/-- Python `f"{x}"` on the `last_error` variable, which is `None` until
some strategy raises. -/
def lastErrorText : Option String → String
  | Option.none => "None"
  | some m => m

/-- Embedding of the strategy loop of `ParsingService.parse_video`
(`src/parsing_service/app.py`, lines 160-204): walk the sorted strategy
list, skip disabled entries, run each enabled strategy (outcome given by
`env`); a validated result records a success, caches the result and is
returned at once; a timeout or exception records a failure and updates
`last_error`; an invalid result is skipped silently; when the list is
exhausted an exception reporting the last error is raised.  The second
component is the trace of effects actually performed. -/
def parseVideoChain (env : StrategyRec → AttemptOutcome) :
    List StrategyRec → Option String →
    Except String (List (String × PyVal)) × List ChainEv
  | [], lastError =>
    (.error ("All strategies failed. Last error: " ++ lastErrorText lastError), [])
  | s :: rest, lastError =>
    if s.enabled = false then parseVideoChain env rest lastError
    else
      match env s with
      | .ok r =>
        if validate_result r then
          (.ok r, [.attempt s.name, .recordSuccess s.name, .cacheSet r])
        else
          let next := parseVideoChain env rest lastError
          (next.1, .attempt s.name :: next.2)
      | .timeout =>
        let next := parseVideoChain env rest
          (some ("Strategy " ++ s.name ++ " timed out"))
        (next.1, .attempt s.name :: .recordFailure s.name :: next.2)
      | .error m =>
        let next := parseVideoChain env rest (some m)
        (next.1, .attempt s.name :: .recordFailure s.name :: next.2)

/-- Test: under `env`, strategy `s` does not produce a validated result
(it times out, raises, or returns an invalid result). -/
def failsOrInvalid (env : StrategyRec → AttemptOutcome) (s : StrategyRec) : Bool :=
  match env s with
  | .ok r => !validate_result r
  | .timeout => true
  | .error _ => true

/-- Last error recorded while walking a (fully failing) strategy list. -/
def chainLastError (env : StrategyRec → AttemptOutcome) :
    List StrategyRec → Option String → Option String
  | [], le => le
  | s :: rest, le =>
    if s.enabled = false then chainLastError env rest le
    else
      match env s with
      | .ok _ => chainLastError env rest le
      | .timeout => chainLastError env rest (some ("Strategy " ++ s.name ++ " timed out"))
      | .error m => chainLastError env rest (some m)

/-- Trace of effects of one failing enabled strategy: an invalid result
only logs the attempt, a timeout or exception also records a failure. -/
def failEvents (env : StrategyRec → AttemptOutcome) (s : StrategyRec) : List ChainEv :=
  match env s with
  | .ok _ => [.attempt s.name]
  | .timeout => [.attempt s.name, .recordFailure s.name]
  | .error _ => [.attempt s.name, .recordFailure s.name]

/-- Trace of effects of a fully failing strategy list. -/
def failTrace (env : StrategyRec → AttemptOutcome) (ss : List StrategyRec) : List ChainEv :=
  (ss.filter (fun s => s.enabled)).flatMap (failEvents env)

/-- One redis entry written by `CacheManager.set`: the stored JSON
document and the absolute expiry time set by `setex`. -/
structure CacheEntry : Type where
  data : PyVal
  expiry : ℚ

/-- Redis keyspace visible to `CacheManager` (string keys to `setex`-ed
JSON documents). -/
structure CacheState : Type where
  entries : List (String × CacheEntry)

/-- Embedding of `CacheManager._make_key`: URLs are keyed through a hex
digest (`hashlib.md5`, modelled by the deterministic function `hash`),
other keys are used directly under the prefix. -/
def cache_make_key (hash : String → String) (pfx key : String) : String :=
  if key.startsWith "http" then pfx ++ "url:" ++ hash key else pfx ++ key

/-- Embedding of `CacheManager.set`: wrap the value in a metadata dict
`{'value': value, 'cached_at': now, 'ttl': ttl}` and `setex` its JSON
encoding under the derived key with the given TTL. -/
def cache_set (hash : String → String) (pfx : String) (st : CacheState)
    (key : String) (value : PyVal) (ttl : ℚ) (now : ℚ) : CacheState :=
  ⟨alistSet st.entries (cache_make_key hash pfx key)
    ⟨.dict [("value", value), ("cached_at", .num now), ("ttl", .num ttl)], now + ttl⟩⟩

/-- Embedding of `CacheManager.get`: read the redis value under the
derived key (absent once the TTL has expired) and return `json.loads`
of it unchanged; a falsy value counts as a miss. -/
def cache_get (hash : String → String) (pfx : String) (st : CacheState)
    (key : String) (now : ℚ) : Option PyVal :=
  match st.entries.lookup (cache_make_key hash pfx key) with
  | some e => if now < e.expiry then (if pyTruthy e.data then some e.data else Option.none)
              else Option.none
  | Option.none => Option.none

/-- Per-proxy bookkeeping entry of `ProxyManager.proxy_stats`
(a `defaultdict`; absent proxies read as `defaultProxyStats`). -/
structure ProxyStatsRec : Type where
  success : ℕ
  failure : ℕ
  last_used : ℚ
  last_success : ℚ
  blocked : Bool
  block_until : ℚ
deriving DecidableEq

/-- Default entry created by the `defaultdict` factory. -/
def defaultProxyStats : ProxyStatsRec := ⟨0, 0, 0, 0, false, 0⟩

/-- State of a `ProxyManager`. -/
structure PMState : Type where
  proxies : List String
  stats : List (String × ProxyStatsRec)
deriving DecidableEq

/-- Read the stats entry for a proxy (`defaultdict` semantics). -/
def pmGet (st : PMState) (p : String) : ProxyStatsRec :=
  (st.stats.lookup p).getD defaultProxyStats

/-- Embedding of the per-proxy filter step of
`ProxyManager._get_available_proxies`: a proxy still inside its block
window is skipped; an expired block is cleared (mutating the stats);
then a proxy used less than one second ago is skipped. -/
def availStep (now : ℚ) (p : String) (acc : List String × List (String × ProxyStatsRec)) :
    List String × List (String × ProxyStatsRec) :=
  let s := (acc.2.lookup p).getD defaultProxyStats
  if s.blocked then
    if now < s.block_until then acc
    else
      let s1 := { s with blocked := false, block_until := 0 }
      let sts := alistSet acc.2 p s1
      if now - s1.last_used < 1 then (acc.1, sts) else (acc.1 ++ [p], sts)
  else
    if now - s.last_used < 1 then acc else (acc.1 ++ [p], acc.2)

/-- Embedding of `ProxyManager._get_available_proxies`
(`src/parsing_service/utils/proxy_manager.py`): fold the filter step
over the proxy list, returning the available proxies in order together
with the (possibly unblocked) stats. -/
def get_available_proxies (st : PMState) (now : ℚ) :
    List String × List (String × ProxyStatsRec) :=
  st.proxies.foldl (fun acc p => availStep now p acc) ([], st.stats)

/-- Embedding of `ProxyManager.get_proxy`: `None` on an empty proxy list
or an empty available list; otherwise every rotation strategy (`random`,
`round-robin`, `weighted`, fallback) returns some element of the
available list, modelled by the selection index `sel` into it, and the
chosen proxy's `last_used` is set to the current time. -/
def get_proxy (st : PMState) (now : ℚ) (sel : ℕ) : Option String × PMState :=
  if st.proxies.isEmpty then (Option.none, st)
  else
    let avst := get_available_proxies st now
    if avst.1.isEmpty then (Option.none, { st with stats := avst.2 })
    else
      let p := avst.1.getD (sel % avst.1.length) ""
      let ps := (avst.2.lookup p).getD defaultProxyStats
      (some p, { st with stats := alistSet avst.2 p { ps with last_used := now } })

/-- Embedding of `ProxyManager._count_recent_failures` with the default
60 second window: a success inside the window resets the estimate to 1,
otherwise the failure count clipped at 3 is used. -/
def count_recent_failures (s : ProxyStatsRec) (now : ℚ) : ℕ :=
  if now - 60 < s.last_success then 1 else min s.failure 3

/-- Embedding of `ProxyManager.mark_failure`: for a non-empty proxy
string, increment the failure count, and when the recent-failure
estimate reaches 3 set the block flag with `block_until = now +
block_duration`. -/
def mark_failure (st : PMState) (p : String) (now : ℚ) (block_duration : ℚ) : PMState :=
  if p.isEmpty then st
  else
    let s := pmGet st p
    let s1 := { s with failure := s.failure + 1 }
    let recent := count_recent_failures s1 now
    let s2 :=
      if 3 ≤ recent then { s1 with blocked := true, block_until := now + block_duration }
      else s1
    { st with stats := alistSet st.stats p s2 }

/-- Download counters of `DouYinDownloaderV3`. -/
structure DownloadStats : Type where
  total : ℕ
  success : ℕ
  failed : ℕ
  skipped : ℕ
deriving DecidableEq

/-- Files on disk under the save directory: path to byte content. -/
abbrev FileSystem := List (String × List ℕ)

/-- Python `Path.unlink` / key removal on the modelled file system. -/
def alistRemove {α : Type} (d : List (String × α)) (k : String) : List (String × α) :=
  d.filter (fun kv => kv.1 ≠ k)

/-- Python `str.strip()`: drop leading and trailing whitespace. -/
def pyStrip (s : String) : String :=
  String.mk (((s.toList.dropWhile Char.isWhitespace).reverse.dropWhile
    Char.isWhitespace).reverse)

/-- Embedding of `DouYinDownloaderV3._sanitize_filename`
(`src/downloader_v3.py`): drop the characters rejected by the regex
character class, truncate to 50 characters, strip surrounding
whitespace, and fall back to `untitled`. -/
def sanitize_filename (s : String) : String :=
  let s1 := String.mk (s.toList.filter
    (fun c => decide (c ∉ ['<', '>', ':', '"', '/', '\\', '|', '?', '*'])))
  let s2 := String.mk (s1.toList.take 50)
  let s3 := pyStrip s2
  if s3.isEmpty then "untitled" else s3

/-- Content id string `video_info.get('video_id', 'unknown')` used in
the file names built by `download_video`. -/
def dlVideoId (info : List (String × PyVal)) : String :=
  pyStrOf (pyGetD info "video_id" (.str "unknown"))

/-- Sanitized title part of the file names built by `download_video`. -/
def dlTitle (info : List (String × PyVal)) : String :=
  sanitize_filename (pyStrOf (pyGetD info "title" (pyGetD info "video_id" (.str "unknown"))))

/-- Sanitized author part of the file names built by `download_video`. -/
def dlAuthor (info : List (String × PyVal)) : String :=
  sanitize_filename (pyStrOf (pyGetD info "author" (.str "unknown")))

/-- Target file name `f"{author}_{title}_{video_id}.mp4"` of
`download_video`. -/
def video_filename (info : List (String × PyVal)) : String :=
  dlAuthor info ++ "_" ++ dlTitle info ++ "_" ++ dlVideoId info ++ ".mp4"

/-- Cover file name `f"{author}_{title}_{video_id}.jpg"`. -/
def cover_filename (info : List (String × PyVal)) : String :=
  dlAuthor info ++ "_" ++ dlTitle info ++ "_" ++ dlVideoId info ++ ".jpg"

/-- Outcome of a streamed video GET inside `download_video`: either the
full content is fetched and written, or the request or a chunk write
raises after having written `written` bytes so far (`none` when the
failure precedes the first write, e.g. in `raise_for_status`). -/
inductive VideoNet : Type where
  | ok (content : List ℕ)
  | fail (written : Option (List ℕ))

/-- Python `f"image_{i:02d}"` for the loop indices used here. -/
def twoDigit (i : ℕ) : String := if i < 10 then "0" ++ toString i else toString i

/-- Embedding of `DouYinDownloaderV3._download_images`: write each
successfully fetched image (`imgNet` gives the per-image outcome) into
the per-post directory, then count one post success when any image was
written and one failure otherwise; an empty image list fails without
touching the counters. -/
def download_images (fs : FileSystem) (stats : DownloadStats)
    (info : List (String × PyVal)) (title author : String)
    (imgNet : List (Option (List ℕ))) : Bool × FileSystem × DownloadStats :=
  let images := asPyList (pyGetD info "images" (.list []))
  if images.isEmpty then (false, fs, stats)
  else
    let video_id := pyStrOf (pyGetD info "video_id" (.str "unknown"))
    let dir := author ++ "_" ++ title ++ "_" ++ video_id
    let indexed := (List.range images.length).map (fun j => (j + 1, imgNet.getD j Option.none))
    let fs1 := indexed.foldl
      (fun acc ij =>
        match ij.2 with
        | some b => alistSet acc (dir ++ "/image_" ++ twoDigit ij.1 ++ ".jpg") b
        | Option.none => acc)
      fs
    if 0 < (indexed.filter (fun ij => ij.2.isSome)).length then
      (true, fs1, { stats with success := stats.success + 1 })
    else
      (false, fs1, { stats with failed := stats.failed + 1 })

/-- Embedding of `DouYinDownloaderV3.download_video`
(`src/downloader_v3.py`, lines 159-234): falsy info fails at once; image
posts are delegated; a missing or falsy `video_url` fails; an existing
target file is skipped, counting `skipped` and returning `True`; a
fetched video is written and counted as a success, optionally followed
by a best-effort cover download; a failed fetch counts `failed`,
deletes the partially written file if present and returns `False`. -/
def download_video (fs : FileSystem) (stats : DownloadStats)
    (info : List (String × PyVal)) (net : VideoNet) (coverNet : Option (List ℕ))
    (imgNet : List (Option (List ℕ))) : Bool × FileSystem × DownloadStats :=
  if info.isEmpty then (false, fs, stats)
  else
    if pyTruthy (pyGetD info "is_image" .none) then
      download_images fs stats info (dlTitle info) (dlAuthor info) imgNet
    else if !pyTruthy (pyGetD info "video_url" .none) then (false, fs, stats)
    else
      let filename := video_filename info
      if (fs.lookup filename).isSome then
        (true, fs, { stats with skipped := stats.skipped + 1 })
      else
        match net with
        | .ok content =>
          let fs1 := alistSet fs filename content
          let coverName := cover_filename info
          let fs2 :=
            if pyTruthy (pyGetD info "cover_url" .none) then
              if (fs1.lookup coverName).isSome then fs1
              else
                match coverNet with
                | some b => alistSet fs1 coverName b
                | Option.none => fs1
            else fs1
          (true, fs2, { stats with success := stats.success + 1 })
        | .fail written =>
          let fsTmp :=
            match written with
            | some b => alistSet fs filename b
            | Option.none => fs
          (false, alistRemove fsTmp filename, { stats with failed := stats.failed + 1 })

/-- Outcome of one `parsing_service.parse_video` task inside the
`/batch_parse` handler: a result value or a raised exception gathered by
`asyncio.gather(..., return_exceptions=True)`. -/
inductive ParseOutcome : Type where
  | ok (r : PyVal)
  | exn (msg : String)

/-- Per-URL entry appended by the result loop of `batch_parse`. -/
def batchEntry (env : String → ParseOutcome) (u : String) : PyVal :=
  match env u with
  | .exn m => .dict [("url", .str u), ("success", .bool false), ("error", .str m)]
  | .ok r => .dict [("url", .str u), ("success", .bool true), ("data", r)]

/-- HTTP response of the `/batch_parse` endpoint: status code, the
`error` field of an error body, and the `results` list of a success
body. -/
structure BatchResponse : Type where
  status : ℕ
  error : Option String
  results : Option (List PyVal)

/-- Embedding of the `/batch_parse` handler (`src/parsing_service/app.py`,
lines 356-401): a missing `urls` field reads as `[]`; an empty list is
rejected with 400 `URLs are required`; more than 10 URLs are rejected
with 400 `Maximum 10 URLs per batch`; otherwise every URL is parsed and
the per-URL outcomes are reported in input order. -/
def batch_parse (urls : Option (List String)) (env : String → ParseOutcome) :
    BatchResponse :=
  let us := urls.getD []
  if us.isEmpty then ⟨400, some "URLs are required", Option.none⟩
  else if 10 < us.length then ⟨400, some "Maximum 10 URLs per batch", Option.none⟩
  else ⟨200, Option.none, some (us.map (batchEntry env))⟩

/-- Statement-level rendering of the spec's description of
`extract_video_id`: the capture of the first matching pattern among the
five, `none` when no pattern matches. -/
def extract_video_id_spec (url : String) : Option String :=
  [searchVideoPath url, searchNotePath url, searchModalId url, searchAwemeId url,
   searchBareDigits url].findSome? id

/-- Number of `_record_success` events for a strategy in an event list. -/
def countSuccessEvents (name : String) (events : List ServiceEvent) : ℕ :=
  (events.filter (fun e => e = ServiceEvent.success name)).length

/-- Concrete validated strategy result used by the witnesses. -/
def rFix : List (String × PyVal) :=
  [("video_id", .str "123"), ("title", .str "t"), ("author", .str "a"),
   ("video_url", .str "http://v")]

/-- Concrete `api_with_signature` chain entry. -/
def apiStrat : StrategyRec := ⟨"api_with_signature", 1, 10, true⟩

/-- Concrete `requests` chain entry. -/
def reqStrat : StrategyRec := ⟨"requests", 4, 15, true⟩

/-- Concrete environment: the API strategy raises and the requests
strategy returns the validated record. -/
def envOkSecond (s : StrategyRec) : AttemptOutcome :=
  if s.name = "requests" then .ok rFix else .error "api down"

/-- Concrete environment in which every strategy raises. -/
def envBoom (_ : StrategyRec) : AttemptOutcome := .error "boom"

/-- Concrete counter state: one success and one failure recorded for
`playwright`, nothing for the other strategies. -/
def stWeights : ServiceState := ⟨[("playwright", 1)], [("playwright", 1)]⟩

/-- Deterministic stand-in for the `hashlib.md5` hex digest used by the
cache key derivation. -/
def hashId (s : String) : String := s

/-- Concrete cached URL for the cache theorem. -/
def urlFix : String := "https://www.douyin.com/video/123"

/-- Concrete proxy address used by the proxy witness. -/
def proxyFix : String := "http://10.0.0.1:8080"

/-- Concrete proxy manager state: one proxy with two prior failures and
no recent success. -/
def pmFix : PMState := ⟨[proxyFix], [(proxyFix, ⟨0, 2, 0, 0, false, 0⟩)]⟩

/-- Concrete download statistics fixture. -/
def stats0 : DownloadStats := ⟨0, 0, 0, 0⟩

/-- Concrete video info fixture for the downloader witness. -/
def infoFix : List (String × PyVal) :=
  [("video_id", .str "123"), ("title", .str "t"), ("author", .str "a"),
   ("video_url", .str "http://v")]

/-- Concrete pre-existing file system for the downloader skip case. -/
def fsFix : FileSystem := [("a_t_123.mp4", [1, 2])]

/-- Concrete per-URL parse environment for the batch witness. -/
def envBatch (u : String) : ParseOutcome :=
  if u = "a" then .ok (.str "ok") else .exn "bad"

/-- Eleven URLs, one over the batch limit. -/
def urls11 : List String := List.replicate 11 "u"

theorem lookup_alistSet_self {α : Type} (d : List (String × α)) (k : String) (v : α) :
    (alistSet d k v).lookup k = some v := by
  induction d with
  | nil => simp [alistSet, List.lookup]
  | cons kv rest ih =>
    by_cases hk : kv.1 = k
    · simp [alistSet, hk, List.lookup]
    · have hne : (k == kv.1) = false := by
        simp only [beq_eq_false_iff_ne, ne_eq]
        exact fun he => hk he.symm
      simp [alistSet, hk, List.lookup, hne, ih]

theorem lookup_alistSet_ne {α : Type} (d : List (String × α)) (k k' : String) (v : α)
    (hne : k' ≠ k) : (alistSet d k v).lookup k' = d.lookup k' := by
  induction d with
  | nil =>
    have h : (k' == k) = false := by simpa [beq_eq_false_iff_ne] using hne
    simp [alistSet, List.lookup, h]
  | cons kv rest ih =>
    by_cases hk : kv.1 = k
    · have h1 : (k' == k) = false := by simpa [beq_eq_false_iff_ne] using hne
      have h2 : (k' == kv.1) = false := by
        simp only [beq_eq_false_iff_ne, ne_eq]
        exact fun he => hne (he.trans hk)
      simp [alistSet, hk, List.lookup, h1, h2]
    · simp only [alistSet, if_neg hk, List.lookup]
      cases hb : (k' == kv.1) with
      | true => rfl
      | false => exact ih

/-- C5: for every URL string, `BaseStrategy.extract_video_id` returns the
digits captured by the first matching pattern among `/video/(\d+)`,
`/note/(\d+)`, `modal_id=(\d+)`, `aweme_id=(\d+)` and a bare run of 15
to 20 digits following a slash, and returns `none` when no pattern
matches, in particular for an unresolved `v.douyin.com` short link.  The
concrete conjuncts exercise each pattern and the short-link miss. -/
theorem extract_video_id_first_pattern :
    (∀ url, extract_video_id url = extract_video_id_spec url) ∧
    extract_video_id "https://www.douyin.com/video/7549035040701844779" =
      some "7549035040701844779" ∧
    extract_video_id "https://www.douyin.com/note/7402688702945086767" =
      some "7402688702945086767" ∧
    extract_video_id "https://www.douyin.com/discover?modal_id=7549035040701844779" =
      some "7549035040701844779" ∧
    extract_video_id "https://api.example.com/detail/?aweme_id=123456" = some "123456" ∧
    extract_video_id "https://www.iesdouyin.com/share/12345678901234567" =
      some "12345678901234567" ∧
    extract_video_id "https://v.douyin.com/gNv_ZvhuEr0/" = Option.none := by
  refine ⟨fun url => ?_, by decide, by decide, by decide, by decide, by decide, by decide⟩
  unfold extract_video_id extract_video_id_spec
  cases searchVideoPath url <;> cases searchNotePath url <;> cases searchModalId url <;>
    cases searchAwemeId url <;> cases searchBareDigits url <;>
      simp [List.findSome?_cons, List.findSome?_nil]

/-- C4: `DouYinWebParser._resolve_short_url` reads the `Location` header
of its single non-redirecting request: a redirect target containing
`/video/<digits>` (which subsumes `/share/video/<digits>`) is rewritten
to the canonical `https://www.douyin.com/video/<id>`, any other target
is returned as is, and a missing header or a raised request returns the
original URL unchanged. -/
theorem resolve_short_url_redirect :
    (∀ url, resolve_short_url url .err = url) ∧
    (∀ url, resolve_short_url url (.resp Option.none) = url) ∧
    (∀ url loc, resolve_short_url url (.resp (some loc)) =
      (match (searchVideoPath loc).orElse (fun _ => searchShareVideoPath loc) with
       | some vid => "https://www.douyin.com/video/" ++ vid
       | Option.none => loc)) ∧
    (∀ url, resolve_short_url url
        (.resp (some "https://www.iesdouyin.com/share/video/7549035040701844779/?region=CN")) =
      "https://www.douyin.com/video/7549035040701844779") ∧
    (∀ url, resolve_short_url url (.resp (some "https://www.douyin.com/user/abc123")) =
      "https://www.douyin.com/user/abc123") := by
  refine ⟨fun url => rfl, fun url => rfl, fun url loc => ?_, fun url => rfl, fun url => rfl⟩
  unfold resolve_short_url
  cases h1 : searchVideoPath loc <;> cases h2 : searchShareVideoPath loc <;>
    simp [h1, h2, Option.orElse]

theorem parseVideoChain_all_fail (env : StrategyRec → AttemptOutcome) :
    ∀ (ss : List StrategyRec) (le : Option String),
    (∀ s ∈ ss, s.enabled = true → failsOrInvalid env s = true) →
    parseVideoChain env ss le =
      (.error ("All strategies failed. Last error: " ++
        lastErrorText (chainLastError env ss le)), failTrace env ss) := by
  intro ss
  induction ss with
  | nil => intro le _; rfl
  | cons s rest ih =>
    intro le hall
    have hrest : ∀ t ∈ rest, t.enabled = true → failsOrInvalid env t = true :=
      fun t ht => hall t (List.mem_cons_of_mem s ht)
    by_cases hs : s.enabled = false
    · have hfil : (s :: rest).filter (fun t => t.enabled) =
          rest.filter (fun t => t.enabled) := by
        simp [List.filter_cons, hs]
      simp only [parseVideoChain, if_pos hs, chainLastError, failTrace, hfil]
      exact ih le hrest
    · have hs' : s.enabled = true := by
        cases h : s.enabled with
        | false => exact absurd h hs
        | true => rfl
      have hfoi : failsOrInvalid env s = true := hall s (List.mem_cons_self s rest) hs'
      have hfil : (s :: rest).filter (fun t => t.enabled) =
          s :: rest.filter (fun t => t.enabled) := by
        simp [List.filter_cons, hs']
      cases henv : env s with
      | ok r =>
        have hval : validate_result r = false := by
          unfold failsOrInvalid at hfoi
          rw [henv] at hfoi
          simpa using hfoi
        simp only [parseVideoChain, if_neg hs, henv, hval, Bool.false_eq_true, if_false,
          chainLastError, failTrace, hfil, List.flatMap_cons, failEvents, henv]
        rw [ih le hrest]
        simp [failTrace]
      | timeout =>
        simp only [parseVideoChain, if_neg hs, henv, chainLastError, failTrace, hfil,
          List.flatMap_cons, failEvents, henv]
        rw [ih ((some ("Strategy " ++ s.name ++ " timed out"))) hrest]
        simp [failTrace]
      | error m =>
        simp only [parseVideoChain, if_neg hs, henv, chainLastError, failTrace, hfil,
          List.flatMap_cons, failEvents, henv]
        rw [ih (some m) hrest]
        simp [failTrace]

theorem parseVideoChain_first_success (env : StrategyRec → AttemptOutcome) :
    ∀ (pre : List StrategyRec) (s : StrategyRec) (rest : List StrategyRec)
      (le : Option String) (r : List (String × PyVal)),
    (∀ t ∈ pre, t.enabled = true → failsOrInvalid env t = true) →
    s.enabled = true → env s = .ok r → validate_result r = true →
    parseVideoChain env (pre ++ s :: rest) le =
      (.ok r, failTrace env pre ++
        [.attempt s.name, .recordSuccess s.name, .cacheSet r]) := by
  intro pre
  induction pre with
  | nil =>
    intro s rest le r _ hs henv hval
    have hs0 : (s.enabled = false) = False := by simp [hs]
    simp only [List.nil_append, parseVideoChain, hs0, if_false, henv, hval, if_true,
      failTrace, List.filter_nil, List.flatMap_nil, List.nil_append]
  | cons t pre ih =>
    intro s rest le r hall hs henv hval
    have hpre : ∀ u ∈ pre, u.enabled = true → failsOrInvalid env u = true :=
      fun u hu => hall u (List.mem_cons_of_mem t hu)
    by_cases ht : t.enabled = false
    · have hfil : (t :: pre).filter (fun u => u.enabled) =
          pre.filter (fun u => u.enabled) := by
        simp [List.filter_cons, ht]
      simp only [List.cons_append, parseVideoChain, if_pos ht, failTrace, hfil]
      exact ih s rest le r hpre hs henv hval
    · have ht' : t.enabled = true := by
        cases h : t.enabled with
        | false => exact absurd h ht
        | true => rfl
      have hfoi : failsOrInvalid env t = true := hall t (List.mem_cons_self t pre) ht'
      have hfil : (t :: pre).filter (fun u => u.enabled) =
          t :: pre.filter (fun u => u.enabled) := by
        simp [List.filter_cons, ht']
      cases henvt : env t with
      | ok q =>
        have hvq : validate_result q = false := by
          unfold failsOrInvalid at hfoi
          rw [henvt] at hfoi
          simpa using hfoi
        simp only [List.cons_append, parseVideoChain, if_neg ht, henvt, hvq,
          Bool.false_eq_true, if_false, failTrace, hfil, List.flatMap_cons, failEvents, henvt]
        rw [List.append_eq, ih s rest le r hpre hs henv hval]
        simp [failTrace]
      | timeout =>
        simp only [List.cons_append, parseVideoChain, if_neg ht, henvt, failTrace, hfil,
          List.flatMap_cons, failEvents, henvt]
        rw [List.append_eq,
          ih s rest (some ("Strategy " ++ t.name ++ " timed out")) r hpre hs henv hval]
        simp [failTrace]
      | error m =>
        simp only [List.cons_append, parseVideoChain, if_neg ht, henvt, failTrace, hfil,
          List.flatMap_cons, failEvents, henvt]
        rw [List.append_eq, ih s rest (some m) r hpre hs henv hval]
        simp [failTrace]

/-- C1: the `parse_video` strategy loop tries the enabled strategies one
at a time in chain order (each awaited under that strategy's
`asyncio.wait_for` timeout, modelled by the per-strategy outcome `env`):
the first enabled strategy whose outcome is a validated record ends the
loop, and the returned value and effect trace do not mention the
remaining strategies at all; when every enabled strategy times out,
raises, or yields an invalid result, the loop raises an exception whose
message reports the last recorded error. -/
theorem parse_video_strategy_chain (env : StrategyRec → AttemptOutcome)
    (le : Option String) :
    (∀ (pre : List StrategyRec) (s : StrategyRec) (rest : List StrategyRec)
       (r : List (String × PyVal)),
       (∀ t ∈ pre, t.enabled = true → failsOrInvalid env t = true) →
       s.enabled = true → env s = .ok r → validate_result r = true →
       parseVideoChain env (pre ++ s :: rest) le =
         (.ok r, failTrace env pre ++
           [.attempt s.name, .recordSuccess s.name, .cacheSet r])) ∧
    (∀ ss : List StrategyRec,
       (∀ s ∈ ss, s.enabled = true → failsOrInvalid env s = true) →
       parseVideoChain env ss le =
         (.error ("All strategies failed. Last error: " ++
           lastErrorText (chainLastError env ss le)), failTrace env ss)) := by
  exact ⟨fun pre s rest r hall hs henv hval =>
      parseVideoChain_first_success env pre s rest le r hall hs henv hval,
    fun ss hall => parseVideoChain_all_fail env ss le hall⟩

/-- Witness for C1 at concrete inputs: with the API strategy raising and
the requests strategy returning the validated record, the chain returns
that record and never touches strategies after it; with every strategy
raising `boom`, the chain raises with the last error. -/
theorem parse_video_strategy_chain_witness :
    parseVideoChain envOkSecond ([apiStrat] ++ reqStrat :: []) Option.none =
      (.ok rFix, failTrace envOkSecond [apiStrat] ++
        [.attempt reqStrat.name, .recordSuccess reqStrat.name, .cacheSet rFix]) ∧
    parseVideoChain envBoom [apiStrat, reqStrat] Option.none =
      (.error ("All strategies failed. Last error: " ++
        lastErrorText (chainLastError envBoom [apiStrat, reqStrat] Option.none)),
       failTrace envBoom [apiStrat, reqStrat]) := by
  constructor
  · exact (parse_video_strategy_chain envOkSecond Option.none).1 [apiStrat] reqStrat []
      rFix (by decide) (by decide) rfl rfl
  · exact (parse_video_strategy_chain envBoom Option.none).2 [apiStrat, reqStrat] (by decide)

/-- C2: `_sort_strategies_by_weight` orders the strategies descending by
dynamic weight (a stable permutation of the chain).  A strategy with
recorded history gets `base * (0.5 + 0.5 * success_rate)` with
`success_rate = successes / (successes + failures)`; a strategy with no
history keeps its base weight; the base weights are 1.0, 0.8, 0.6 and
0.4 for `api_with_signature`, `playwright`, `selenium` and `requests`
(0.5 for unknown names). -/
theorem sort_strategies_by_weight_descending (st : ServiceState) (ss : List StrategyRec) :
    (sort_strategies_by_weight st ss).Perm ss ∧
    (sort_strategies_by_weight st ss).Pairwise
      (fun a b => dynamicWeight st b.name ≤ dynamicWeight st a.name) ∧
    (∀ name, 0 < successCount st name + failureCount st name →
      dynamicWeight st name =
        baseWeight name * (1/2 + successCount st name /
          (successCount st name + failureCount st name) * (1/2))) ∧
    (∀ name, successCount st name + failureCount st name = 0 →
      dynamicWeight st name = baseWeight name) ∧
    baseWeight "api_with_signature" = 1 ∧ baseWeight "playwright" = 4/5 ∧
    baseWeight "selenium" = 3/5 ∧ baseWeight "requests" = 2/5 := by
  refine ⟨List.mergeSort_perm ss _, ?_, ?_, ?_, rfl, rfl, rfl, rfl⟩
  · have htrans : ∀ a b c : StrategyRec,
        decide (dynamicWeight st b.name ≤ dynamicWeight st a.name) = true →
        decide (dynamicWeight st c.name ≤ dynamicWeight st b.name) = true →
        decide (dynamicWeight st c.name ≤ dynamicWeight st a.name) = true := by
      intro a b c hab hbc
      exact decide_eq_true (le_trans (of_decide_eq_true hbc) (of_decide_eq_true hab))
    have htotal : ∀ a b : StrategyRec,
        (decide (dynamicWeight st b.name ≤ dynamicWeight st a.name) ||
         decide (dynamicWeight st a.name ≤ dynamicWeight st b.name)) = true := by
      intro a b
      rcases le_total (dynamicWeight st b.name) (dynamicWeight st a.name) with h | h
      · simp [h]
      · simp [h]
    have hp := List.sorted_mergeSort htrans htotal ss
    exact hp.imp (fun h => of_decide_eq_true h)
  · intro name h
    unfold dynamicWeight
    rw [if_pos h]
  · intro name h
    unfold dynamicWeight
    rw [if_neg (by rw [h]; exact lt_irrefl 0)]

/-- Witness for C2 at a concrete counter state: one success and one
failure recorded for `playwright` give it the dynamic-weight formula
(0.8 * 0.75 = 0.6), while `requests`, with no history, keeps its base
weight. -/
theorem sort_strategies_by_weight_witness :
    dynamicWeight stWeights "playwright" =
      baseWeight "playwright" * (1/2 + successCount stWeights "playwright" /
        (successCount stWeights "playwright" + failureCount stWeights "playwright") * (1/2)) ∧
    dynamicWeight stWeights "requests" = baseWeight "requests" ∧
    dynamicWeight stWeights "playwright" = 3/5 := by
  have h := sort_strategies_by_weight_descending stWeights []
  have hs : successCount stWeights "playwright" = ((1 : ℕ) : ℚ) := rfl
  have hf : failureCount stWeights "playwright" = 1 := rfl
  have hs2 : successCount stWeights "requests" = ((0 : ℕ) : ℚ) := rfl
  have hf2 : failureCount stWeights "requests" = 0 := rfl
  have hpos : 0 < successCount stWeights "playwright" + failureCount stWeights "playwright" := by
    rw [hs, hf]; norm_num
  have hzero : successCount stWeights "requests" + failureCount stWeights "requests" = 0 := by
    rw [hs2, hf2]; norm_num
  refine ⟨h.2.2.1 "playwright" hpos, h.2.2.2.1 "requests" hzero, ?_⟩
  rw [h.2.2.1 "playwright" hpos, hs, hf]
  have hb : baseWeight "playwright" = 4/5 := rfl
  rw [hb]
  norm_num

theorem failureCount_record_failure (st : ServiceState) (name m : String) :
    failureCount (record_failure st name) m =
      if m = name then failureCount st name + 1 else failureCount st m := by
  unfold failureCount record_failure
  by_cases h : m = name
  · subst h
    simp [lookup_alistSet_self]
  · simp [lookup_alistSet_ne _ _ _ _ h, h]

theorem failureCount_record_success (st : ServiceState) (name m : String) :
    failureCount (record_success st name) m =
      if m = name then max 0 (failureCount st name - 1/2) else failureCount st m := by
  unfold failureCount record_success alistHasKey
  by_cases hk : (st.failure_counts.lookup name).isSome
  · by_cases h : m = name
    · subst h
      simp [hk, lookup_alistSet_self]
    · simp [hk, lookup_alistSet_ne _ _ _ _ h, h]
  · by_cases h : m = name
    · subst h
      have hnone : st.failure_counts.lookup m = Option.none := by
        cases hl : st.failure_counts.lookup m with
        | none => rfl
        | some v => rw [hl] at hk; simp at hk
      rw [hnone]
      simp only [Option.isSome_none, Bool.false_eq_true, if_false, hnone, Option.getD_none,
        if_pos rfl]
      simp
    · simp [hk, h]

theorem successCountN_record_success (st : ServiceState) (name m : String) :
    successCountN (record_success st name) m =
      if m = name then successCountN st name + 1 else successCountN st m := by
  unfold successCountN record_success
  by_cases h : m = name
  · subst h
    simp [lookup_alistSet_self]
  · simp [lookup_alistSet_ne _ _ _ _ h, h]

theorem successCountN_record_failure (st : ServiceState) (name m : String) :
    successCountN (record_failure st name) m = successCountN st m := rfl

theorem failureCount_applyEvents_nonneg :
    ∀ (events : List ServiceEvent) (st : ServiceState),
    (∀ n, 0 ≤ failureCount st n) → ∀ n, 0 ≤ failureCount (applyEvents st events) n := by
  intro events
  induction events with
  | nil => intro st h n; exact h n
  | cons e rest ih =>
    intro st h n
    cases e with
    | success nm =>
      refine ih (record_success st nm) (fun m => ?_) n
      rw [failureCount_record_success]
      by_cases hm : m = nm
      · rw [if_pos hm]; exact le_max_left 0 _
      · rw [if_neg hm]; exact h m
    | failure nm =>
      refine ih (record_failure st nm) (fun m => ?_) n
      rw [failureCount_record_failure]
      by_cases hm : m = nm
      · rw [if_pos hm]
        have := h nm
        linarith
      · rw [if_neg hm]; exact h m

theorem successCountN_applyEvents :
    ∀ (events : List ServiceEvent) (st : ServiceState) (n : String),
    successCountN (applyEvents st events) n = successCountN st n + countSuccessEvents n events := by
  intro events
  induction events with
  | nil => intro st n; simp [applyEvents, countSuccessEvents]
  | cons e rest ih =>
    intro st n
    cases e with
    | success nm =>
      rw [show applyEvents st (ServiceEvent.success nm :: rest) =
          applyEvents (record_success st nm) rest from rfl]
      rw [ih (record_success st nm) n, successCountN_record_success]
      by_cases hm : n = nm
      · subst hm
        simp [countSuccessEvents, List.filter_cons]
        ring
      · have hne : (ServiceEvent.success nm = ServiceEvent.success n) = False := by
          simp [ServiceEvent.success.injEq]
          exact fun he => hm he.symm
        simp only [if_neg hm, countSuccessEvents, List.filter_cons, hne, decide_False,
          Bool.false_eq_true, if_false]
    | failure nm =>
      rw [show applyEvents st (ServiceEvent.failure nm :: rest) =
          applyEvents (record_failure st nm) rest from rfl]
      rw [ih (record_failure st nm) n, successCountN_record_failure]
      simp [countSuccessEvents, List.filter_cons]

/-- C10: failure counts are non-negative at all times: starting from the
empty counters, after any interleaving of `_record_success` and
`_record_failure` calls every failure count is at least 0 and every
success count equals exactly the number of successes recorded for that
strategy; one `_record_failure` adds 1 to the failure count and one
`_record_success` subtracts 0.5 clamping at 0. -/
theorem failure_counts_invariant :
    (∀ (events : List ServiceEvent) (n : String),
       0 ≤ failureCount (applyEvents initServiceState events) n) ∧
    (∀ (events : List ServiceEvent) (n : String),
       successCountN (applyEvents initServiceState events) n = countSuccessEvents n events) ∧
    (∀ (st : ServiceState) (n : String),
       failureCount (record_failure st n) n = failureCount st n + 1) ∧
    (∀ (st : ServiceState) (n : String),
       failureCount (record_success st n) n = max 0 (failureCount st n - 1/2)) := by
  refine ⟨?_, ?_, ?_, ?_⟩
  · intro events n
    exact failureCount_applyEvents_nonneg events initServiceState
      (fun m => le_refl 0) n
  · intro events n
    rw [successCountN_applyEvents events initServiceState n]
    have h0 : successCountN initServiceState n = 0 := rfl
    rw [h0, Nat.zero_add]
  · intro st n
    rw [failureCount_record_failure, if_pos rfl]
  · intro st n
    rw [failureCount_record_success, if_pos rfl]

theorem isStrNone_eq_false_iff (v : PyVal) : isStrNone v = false ↔ v ≠ PyVal.str "None" := by
  cases v <;> simp [isStrNone, decide_eq_false_iff_not]

theorem alistHasKey_alistSet {α : Type} (d : List (String × α)) (k k' : String) (v : α)
    (h : alistHasKey d k' = true) : alistHasKey (alistSet d k v) k' = true := by
  unfold alistHasKey at h ⊢
  by_cases he : k' = k
  · subst he
    rw [lookup_alistSet_self]
    rfl
  · rw [lookup_alistSet_ne _ _ _ _ he]
    exact h

theorem alistHasKey_alistUpdate (u : List (String × PyVal)) :
    ∀ (d : List (String × PyVal)) (k : String),
    alistHasKey d k = true → alistHasKey (alistUpdate d u) k = true := by
  induction u with
  | nil => intro d k h; exact h
  | cons kv u ih =>
    intro d k h
    rw [show alistUpdate d (kv :: u) = alistUpdate (alistSet d kv.1 kv.2) u from rfl]
    exact ih (alistSet d kv.1 kv.2) k (alistHasKey_alistSet d kv.1 k kv.2 h)

theorem normalize_video_info_shape (raw : List (String × PyVal)) :
    ∃ u, normalize_video_info raw = alistUpdate (normalizeBase raw) u := by
  unfold normalize_video_info
  by_cases h1 : alistHasKey raw "aweme_detail"
  · rw [if_pos h1]
    exact ⟨_, rfl⟩
  · rw [if_neg h1]
    by_cases h2 : alistHasKey raw "item_list"
    · rw [if_pos h2]
      cases hl : asPyList (pyGetD raw "item_list" (.list [])) with
      | nil => exact ⟨[], rfl⟩
      | cons d ds => exact ⟨_, rfl⟩
    · rw [if_neg h2]
      by_cases h3 : alistHasKey raw "aweme_id"
      · rw [if_pos h3]
        exact ⟨_, rfl⟩
      · rw [if_neg h3]
        exact ⟨[], rfl⟩

/-- C6: a strategy result is accepted by `_validate_result` exactly when
it is non-empty, has the keys `video_id`, `title` and `author`, and any
`video_url` value present is truthy and not the literal string `'None'`;
`normalize_video_info` always produces a record containing the keys
`video_id`, `title` and `author`; and a chain running one enabled
strategy that returns `r` yields `r` if and only if `r` validates. -/
theorem validate_result_characterization :
    (∀ result : List (String × PyVal), validate_result result = true ↔
      (result ≠ [] ∧ alistHasKey result "video_id" = true ∧
       alistHasKey result "title" = true ∧ alistHasKey result "author" = true ∧
       ∀ v, result.lookup "video_url" = some v →
         (pyTruthy v = true ∧ v ≠ PyVal.str "None"))) ∧
    (∀ raw, alistHasKey (normalize_video_info raw) "video_id" = true ∧
       alistHasKey (normalize_video_info raw) "title" = true ∧
       alistHasKey (normalize_video_info raw) "author" = true) ∧
    (∀ (env : StrategyRec → AttemptOutcome) (s : StrategyRec) (le : Option String)
       (r : List (String × PyVal)), s.enabled = true → env s = .ok r →
       ((parseVideoChain env [s] le).1 = .ok r ↔ validate_result r = true)) := by
  refine ⟨?_, ?_, ?_⟩
  · intro result
    unfold validate_result
    by_cases he : result.isEmpty
    · have hnil : result = [] := List.isEmpty_iff.mp he
      subst hnil
      simp
    · have hne : result ≠ [] := by
        intro h
        rw [h] at he
        exact he rfl
      rw [if_neg (by simpa using he)]
      by_cases hks : (alistHasKey result "video_id" && alistHasKey result "title" &&
          alistHasKey result "author") = true
      · rw [if_neg (by simp [hks])]
        have h3 := (Bool.and_eq_true _ _).mp hks
        have h12 := (Bool.and_eq_true _ _).mp h3.1
        cases hv : result.lookup "video_url" with
        | none =>
          constructor
          · intro _
            exact ⟨hne, h12.1, h12.2, h3.2, fun v hveq => by cases hveq⟩
          · intro _; rfl
        | some v =>
          constructor
          · intro h
            have hp := (Bool.and_eq_true _ _).mp
              (show (pyTruthy v && !isStrNone v) = true from h)
            refine ⟨hne, h12.1, h12.2, h3.2, fun w hw => ?_⟩
            cases hw
            exact ⟨hp.1, (isStrNone_eq_false_iff v).mp (by simpa using hp.2)⟩
          · intro h
            have hvv := h.2.2.2.2 v rfl
            show (pyTruthy v && !isStrNone v) = true
            rw [hvv.1, (isStrNone_eq_false_iff v).mpr hvv.2]
            rfl
      · have hfalse : (alistHasKey result "video_id" && alistHasKey result "title" &&
            alistHasKey result "author") = false := by
          cases hb : (alistHasKey result "video_id" && alistHasKey result "title" &&
              alistHasKey result "author") with
          | true => exact absurd hb hks
          | false => rfl
        rw [if_pos (by rw [hfalse]; rfl)]
        constructor
        · intro h; cases h
        · intro h
          rw [h.2.1, h.2.2.1, h.2.2.2.1] at hfalse
          cases hfalse
  · intro raw
    obtain ⟨u, hu⟩ := normalize_video_info_shape raw
    rw [hu]
    exact ⟨alistHasKey_alistUpdate u (normalizeBase raw) "video_id" rfl,
      alistHasKey_alistUpdate u (normalizeBase raw) "title" rfl,
      alistHasKey_alistUpdate u (normalizeBase raw) "author" rfl⟩
  · intro env s le r hs henv
    have hs0 : (s.enabled = false) = False := by simp [hs]
    unfold parseVideoChain
    rw [henv]
    simp only [hs0, if_false]
    by_cases hval : validate_result r
    · rw [if_pos hval]
      simp [hval]
    · rw [if_neg hval]
      constructor
      · intro h
        exfalso
        unfold parseVideoChain at h
        cases h
      · intro h
        exact absurd h hval

/-- Witness for C6: the concrete record `rFix` (with `video_id`, `title`,
`author` and a truthy `video_url`) validates and is accepted by a
one-strategy chain; the normalized record of a raw payload keeps the
three required keys. -/
theorem validate_result_witness :
    validate_result rFix = true ∧
    (parseVideoChain envOkSecond [reqStrat] Option.none).1 = .ok rFix ∧
    alistHasKey (normalize_video_info [("aweme_id", .str "1")]) "author" = true := by
  have hval : validate_result rFix = true := by
    refine (validate_result_characterization.1 rFix).mpr ⟨by simp [rFix], rfl, rfl, rfl, ?_⟩
    intro v hv
    rw [show rFix.lookup "video_url" = some (PyVal.str "http://v") from rfl] at hv
    cases hv
    refine ⟨rfl, ?_⟩
    intro h
    have : "http://v" = "None" := (PyVal.str.injEq _ _).mp h
    simp at this
  refine ⟨hval, ?_, (validate_result_characterization.2.1 [("aweme_id", .str "1")]).2.2⟩
  exact (validate_result_characterization.2.2 envOkSecond reqStrat Option.none rFix
    rfl rfl).mpr hval

/-- C3: executed on the embedded code, `CacheManager.set` followed by
`CacheManager.get` on the same URL before the TTL expires returns the
stored metadata wrapper `{'value': record, 'cached_at': ..., 'ttl':
...}` and NOT the record that was stored: `get` returns `json.loads` of
the `setex`-ed document without unwrapping `['value']`, so set followed
by get is not a round trip and a cache-hitting `parse_video` call
returns the wrapper instead of the earlier normalized record. -/
theorem cache_set_then_get_returns_wrapper :
    cache_get hashId "douyin:cache:"
        (cache_set hashId "douyin:cache:" ⟨[]⟩ urlFix (.dict rFix) 3600 0) urlFix 10 =
      some (.dict [("value", .dict rFix), ("cached_at", .num 0), ("ttl", .num 3600)]) ∧
    cache_get hashId "douyin:cache:"
        (cache_set hashId "douyin:cache:" ⟨[]⟩ urlFix (.dict rFix) 3600 0) urlFix 10 ≠
      some (.dict rFix) := by
  have hkey := lookup_alistSet_self ([] : List (String × CacheEntry))
    (cache_make_key hashId "douyin:cache:" urlFix)
    (⟨PyVal.dict [("value", .dict rFix), ("cached_at", .num 0), ("ttl", .num 3600)],
      0 + 3600⟩ : CacheEntry)
  have h1 : cache_get hashId "douyin:cache:"
      (cache_set hashId "douyin:cache:" ⟨[]⟩ urlFix (.dict rFix) 3600 0) urlFix 10 =
      some (.dict [("value", .dict rFix), ("cached_at", .num 0), ("ttl", .num 3600)]) := by
    unfold cache_get cache_set
    rw [hkey]
    show (if (10 : ℚ) < 0 + 3600 then
        if pyTruthy (PyVal.dict [("value", .dict rFix), ("cached_at", .num 0),
            ("ttl", .num 3600)]) = true then
          some (PyVal.dict [("value", .dict rFix), ("cached_at", .num 0), ("ttl", .num 3600)])
        else Option.none
      else Option.none) =
      some (PyVal.dict [("value", .dict rFix), ("cached_at", .num 0), ("ttl", .num 3600)])
    rw [if_pos (by norm_num : (10 : ℚ) < 0 + 3600)]
    rfl
  refine ⟨h1, ?_⟩
  intro hcontra
  rw [h1] at hcontra
  have h2 : PyVal.dict [("value", .dict rFix), ("cached_at", .num 0), ("ttl", .num 3600)] =
      PyVal.dict rFix := Option.some.inj hcontra
  have h3 := (PyVal.dict.injEq _ _).mp h2
  have h4 := congrArg List.length h3
  simp [rFix] at h4

theorem lookup_alistRemove_self {α : Type} (d : List (String × α)) (k : String) :
    (alistRemove d k).lookup k = Option.none := by
  induction d with
  | nil => rfl
  | cons kv rest ih =>
    by_cases h : kv.1 = k
    · have hd : (decide ¬(kv.1 = k)) = false := by simp [h]
      simp only [alistRemove, List.filter_cons, hd, Bool.false_eq_true, if_false]
      exact ih
    · have hd : (decide ¬(kv.1 = k)) = true := by simp [h]
      have hb : (k == kv.1) = false := by
        simp only [beq_eq_false_iff_ne, ne_eq]
        exact fun he => h he.symm
      simp only [alistRemove, List.filter_cons, hd, if_true, List.lookup, hb]
      exact ih

/-- C7: for a non-image record with a usable video URL,
`DouYinDownloaderV3.download_video` skips the download and returns
`True` when the target file already exists, incrementing the `skipped`
counter and leaving the file system unchanged; and when the fetch fails
partway it deletes the partially written file before returning `False`
with the `failed` counter incremented, so no partial media file remains
on disk. -/
theorem download_video_skip_and_cleanup (fs : FileSystem) (stats : DownloadStats)
    (info : List (String × PyVal)) (net : VideoNet) (coverNet : Option (List ℕ))
    (imgNet : List (Option (List ℕ)))
    (hne : info ≠ [])
    (himg : pyTruthy (pyGetD info "is_image" .none) = false)
    (hurl : pyTruthy (pyGetD info "video_url" .none) = true) :
    ((fs.lookup (video_filename info)).isSome = true →
      download_video fs stats info net coverNet imgNet =
        (true, fs, { stats with skipped := stats.skipped + 1 })) ∧
    (∀ w, fs.lookup (video_filename info) = Option.none → net = .fail w →
      download_video fs stats info net coverNet imgNet =
        (false,
         alistRemove (match w with
           | some b => alistSet fs (video_filename info) b
           | Option.none => fs) (video_filename info),
         { stats with failed := stats.failed + 1 }) ∧
      (download_video fs stats info net coverNet imgNet).2.1.lookup (video_filename info) =
        Option.none) := by
  have hie : info.isEmpty = false := by
    cases info with
    | nil => exact absurd rfl hne
    | cons kv rest => rfl
  constructor
  · intro hex
    simp only [download_video, hie, himg, hurl, Bool.false_eq_true, if_false, Bool.not_true,
      hex, if_true]
  · intro w hnone hnet
    subst hnet
    have hred : download_video fs stats info (.fail w) coverNet imgNet =
        (false,
         alistRemove (match w with
           | some b => alistSet fs (video_filename info) b
           | Option.none => fs) (video_filename info),
         { stats with failed := stats.failed + 1 }) := by
      simp only [download_video, hie, himg, hurl, Bool.false_eq_true, if_false, Bool.not_true,
        hnone, Option.isSome_none]
    refine ⟨hred, ?_⟩
    rw [hred]
    exact lookup_alistRemove_self _ _

/-- Witness for C7 at concrete inputs: with the target file already on
disk the download is skipped, the file system is untouched and `skipped`
is counted; with an empty disk and a fetch failing after a partial
write, the result file system no longer contains the target file. -/
theorem download_video_witness :
    download_video fsFix stats0 infoFix (.ok []) Option.none [] =
      (true, fsFix, { stats0 with skipped := stats0.skipped + 1 }) ∧
    (download_video [] stats0 infoFix (.fail (some [9])) Option.none []).2.1.lookup
        (video_filename infoFix) = Option.none := by
  have h1 := download_video_skip_and_cleanup fsFix stats0 infoFix (.ok []) Option.none []
    (by simp [infoFix]) rfl rfl
  have h2 := download_video_skip_and_cleanup [] stats0 infoFix (.fail (some [9])) Option.none []
    (by simp [infoFix]) rfl rfl
  exact ⟨h1.1 (by decide), (h2.2 (some [9]) rfl rfl).2⟩

theorem availStep_preserves (now : ℚ) (p q : String) (s0 : ProxyStatsRec)
    (hb : s0.blocked = true) (hu : now < s0.block_until)
    (acc : List String × List (String × ProxyStatsRec))
    (h1 : p ∉ acc.1) (h2 : (acc.2.lookup p).getD defaultProxyStats = s0) :
    p ∉ (availStep now q acc).1 ∧
    ((availStep now q acc).2.lookup p).getD defaultProxyStats = s0 := by
  by_cases hq : q = p
  · subst hq
    simp only [availStep]
    rw [h2, if_pos hb, if_pos hu]
    exact ⟨h1, h2⟩
  · have hpq : p ≠ q := fun he => hq he.symm
    simp only [availStep]
    split_ifs <;>
      refine ⟨?_, ?_⟩ <;>
      first
        | exact h1
        | exact h2
        | (rw [lookup_alistSet_ne _ _ _ _ hpq]; exact h2)
        | (intro hmem
           rcases List.mem_append.mp hmem with hm | hm
           · exact h1 hm
           · exact hpq (List.mem_singleton.mp hm))

theorem availFold_blocked (now : ℚ) (p : String) (s0 : ProxyStatsRec)
    (hb : s0.blocked = true) (hu : now < s0.block_until) :
    ∀ (l : List String) (acc : List String × List (String × ProxyStatsRec)),
    p ∉ acc.1 → (acc.2.lookup p).getD defaultProxyStats = s0 →
    p ∉ (l.foldl (fun a q => availStep now q a) acc).1 ∧
    ((l.foldl (fun a q => availStep now q a) acc).2.lookup p).getD defaultProxyStats = s0 := by
  intro l
  induction l with
  | nil => intro acc h1 h2; exact ⟨h1, h2⟩
  | cons q l ih =>
    intro acc h1 h2
    rw [List.foldl_cons]
    have hstep := availStep_preserves now p q s0 hb hu acc h1 h2
    exact ih (availStep now q acc) hstep.1 hstep.2

theorem not_mem_avail_of_blocked (st : PMState) (now : ℚ) (p : String)
    (hb : (pmGet st p).blocked = true) (hu : now < (pmGet st p).block_until) :
    p ∉ (get_available_proxies st now).1 :=
  (availFold_blocked now p (pmGet st p) hb hu st.proxies ([], st.stats)
    (by simp) rfl).1

theorem get_proxy_not_blocked (st : PMState) (now : ℚ) (sel : ℕ) (p : String)
    (hb : (pmGet st p).blocked = true) (hu : now < (pmGet st p).block_until) :
    (get_proxy st now sel).1 ≠ some p := by
  simp only [get_proxy]
  by_cases h1 : st.proxies.isEmpty
  · rw [if_pos h1]
    simp
  · rw [if_neg h1]
    by_cases h2 : (get_available_proxies st now).1.isEmpty
    · rw [if_pos h2]
      simp
    · rw [if_neg h2]
      intro heq
      have hp : (get_available_proxies st now).1.getD
          (sel % (get_available_proxies st now).1.length) "" = p :=
        Option.some.inj heq
      have hlen : 0 < (get_available_proxies st now).1.length :=
        List.length_pos.mpr (fun hnil => h2 (by rw [hnil]; rfl))
      have hmod : sel % (get_available_proxies st now).1.length <
          (get_available_proxies st now).1.length := Nat.mod_lt _ hlen
      have hmem : (get_available_proxies st now).1.getD
          (sel % (get_available_proxies st now).1.length) "" ∈
          (get_available_proxies st now).1 := by
        rw [List.getD_eq_getElem _ _ hmod]
        exact List.getElem_mem hmod
      rw [hp] at hmem
      exact not_mem_avail_of_blocked st now p hb hu hmem

theorem pmGet_mark_failure_self (st : PMState) (p : String) (now dur : ℚ)
    (hp : p.isEmpty = false)
    (hr : 3 ≤ count_recent_failures
      { pmGet st p with failure := (pmGet st p).failure + 1 } now) :
    pmGet (mark_failure st p now dur) p =
      { pmGet st p with
        failure := (pmGet st p).failure + 1
        blocked := true
        block_until := now + dur } := by
  simp only [mark_failure]
  rw [if_neg (by simp [hp])]
  show ((alistSet st.stats p _).lookup p).getD defaultProxyStats = _
  rw [lookup_alistSet_self]
  show (if 3 ≤ count_recent_failures
      { pmGet st p with failure := (pmGet st p).failure + 1 } now then _ else _) = _
  rw [if_pos hr]

/-- C8: `ProxyManager.get_proxy` never returns a proxy whose block flag
is set with `block_until` still in the future (under any rotation
strategy, modelled by the selection index); it returns `None` on an
empty proxy list or when no proxy is available; and a proxy blocked by
`mark_failure` on its third recent failure stays unselectable at every
time before `block_until`. -/
theorem proxy_manager_blocking :
    (∀ (st : PMState) (now : ℚ) (sel : ℕ), st.proxies = [] →
       (get_proxy st now sel).1 = Option.none) ∧
    (∀ (st : PMState) (now : ℚ) (sel : ℕ), (get_available_proxies st now).1 = [] →
       (get_proxy st now sel).1 = Option.none) ∧
    (∀ (st : PMState) (now : ℚ) (sel : ℕ) (p : String),
       (pmGet st p).blocked = true → now < (pmGet st p).block_until →
       (get_proxy st now sel).1 ≠ some p) ∧
    (∀ (st : PMState) (p : String) (now dur t : ℚ) (sel : ℕ),
       p.isEmpty = false →
       3 ≤ count_recent_failures
         { pmGet st p with failure := (pmGet st p).failure + 1 } now →
       ((pmGet (mark_failure st p now dur) p).blocked = true ∧
        (pmGet (mark_failure st p now dur) p).block_until = now + dur ∧
        (t < now + dur → (get_proxy (mark_failure st p now dur) t sel).1 ≠ some p))) := by
  refine ⟨?_, ?_, ?_, ?_⟩
  · intro st now sel h
    simp only [get_proxy]
    rw [if_pos (by rw [h]; rfl)]
  · intro st now sel h
    simp only [get_proxy]
    by_cases h1 : st.proxies.isEmpty
    · rw [if_pos h1]
    · rw [if_neg h1, if_pos (by rw [h]; rfl)]
  · intro st now sel p hb hu
    exact get_proxy_not_blocked st now sel p hb hu
  · intro st p now dur t sel hp hr
    have hg := pmGet_mark_failure_self st p now dur hp hr
    refine ⟨by rw [hg], by rw [hg], fun ht => ?_⟩
    refine get_proxy_not_blocked (mark_failure st p now dur) t sel p (by rw [hg]) ?_
    rw [hg]
    exact ht

/-- Witness for C8 at a concrete state: the single proxy reaches its
third recent failure at time 100 with a 300 second block, so it is
blocked until 400 and `get_proxy` refuses it at time 200; the empty
manager yields no proxy. -/
theorem proxy_manager_blocking_witness :
    (pmGet (mark_failure pmFix proxyFix 100 300) proxyFix).blocked = true ∧
    (pmGet (mark_failure pmFix proxyFix 100 300) proxyFix).block_until = 100 + 300 ∧
    (get_proxy (mark_failure pmFix proxyFix 100 300) 200 0).1 ≠ some proxyFix ∧
    (get_proxy (⟨[], []⟩ : PMState) 0 0).1 = Option.none := by
  have hr : 3 ≤ count_recent_failures
      { pmGet pmFix proxyFix with failure := (pmGet pmFix proxyFix).failure + 1 } 100 := by
    show 3 ≤ count_recent_failures ⟨0, 2 + 1, 0, 0, false, 0⟩ 100
    unfold count_recent_failures
    rw [if_neg (by norm_num : ¬((100 : ℚ) - 60 < 0))]
    norm_num
  have h4 := proxy_manager_blocking.2.2.2 pmFix proxyFix 100 300 200 0 (by decide) hr
  exact ⟨h4.1, h4.2.1, h4.2.2 (by norm_num), proxy_manager_blocking.1 ⟨[], []⟩ 0 0 rfl⟩

/-- C9: `/batch_parse` rejects a missing or empty `urls` list with HTTP
400 and `URLs are required`, rejects more than 10 URLs with HTTP 400 and
`Maximum 10 URLs per batch`, and for 1 to 10 URLs returns HTTP 200 with
one per-URL success-or-error entry for each input URL in order. -/
theorem batch_parse_validation :
    (∀ env, batch_parse Option.none env = ⟨400, some "URLs are required", Option.none⟩) ∧
    (∀ env, batch_parse (some []) env = ⟨400, some "URLs are required", Option.none⟩) ∧
    (∀ env (l : List String), 10 < l.length →
       batch_parse (some l) env = ⟨400, some "Maximum 10 URLs per batch", Option.none⟩) ∧
    (∀ env (l : List String), 1 ≤ l.length → l.length ≤ 10 →
       batch_parse (some l) env = ⟨200, Option.none, some (l.map (batchEntry env))⟩ ∧
       (l.map (batchEntry env)).length = l.length) ∧
    (∀ env u r, env u = .ok r → batchEntry env u =
       .dict [("url", .str u), ("success", .bool true), ("data", r)]) ∧
    (∀ env u m, env u = .exn m → batchEntry env u =
       .dict [("url", .str u), ("success", .bool false), ("error", .str m)]) := by
  refine ⟨fun env => rfl, fun env => rfl, ?_, ?_, ?_, ?_⟩
  · intro env l hlen
    have hne : l.isEmpty = false := by
      cases l with
      | nil => cases hlen
      | cons a t => rfl
    simp only [batch_parse, Option.getD_some, hne, Bool.false_eq_true, if_false,
      if_pos hlen]
  · intro env l h1 h10
    have hne : l.isEmpty = false := by
      cases l with
      | nil => cases h1
      | cons a t => rfl
    have hnot : ¬(10 < l.length) := by omega
    refine ⟨?_, List.length_map l (batchEntry env)⟩
    simp only [batch_parse, Option.getD_some, hne, Bool.false_eq_true, if_false,
      if_neg hnot]
  · intro env u r h
    unfold batchEntry
    rw [h]
  · intro env u m h
    unfold batchEntry
    rw [h]

/-- Witness for C9 at concrete inputs: a mixed two-URL batch succeeds
with per-URL entries in order, eleven URLs are rejected, and an empty
list is rejected with the required-URLs error. -/
theorem batch_parse_validation_witness :
    batch_parse (some ["a", "b"]) envBatch =
      ⟨200, Option.none, some (["a", "b"].map (batchEntry envBatch))⟩ ∧
    batch_parse (some urls11) envBatch =
      ⟨400, some "Maximum 10 URLs per batch", Option.none⟩ ∧
    batch_parse (some []) envBatch = ⟨400, some "URLs are required", Option.none⟩ ∧
    batchEntry envBatch "a" =
      .dict [("url", .str "a"), ("success", .bool true), ("data", .str "ok")] ∧
    batchEntry envBatch "b" =
      .dict [("url", .str "b"), ("success", .bool false), ("error", .str "bad")] := by
  refine ⟨(batch_parse_validation.2.2.2.1 envBatch ["a", "b"] (by decide) (by decide)).1,
    batch_parse_validation.2.2.1 envBatch urls11 (by decide),
    batch_parse_validation.2.1 envBatch,
    batch_parse_validation.2.2.2.2.1 envBatch "a" (.str "ok") rfl,
    batch_parse_validation.2.2.2.2.2 envBatch "b" "bad" rfl⟩
